import Mathlib

/-!
Verification development for the restaurant-dataset reporting engine
(class DataInterpreter of tools/DataInterpreter.py).

The table is embedded shallowly: a record is a `Row` with the column set of
the data model (name, district, ratings, review_count, opening_hours,
opening_hours_span, payment_methods, products, services, marks, phones,
email_address).  The raw table produced by the upstream compiler is modelled
as a list of rows carrying their pandas integer index labels (`LTable`),
positionally labelled 0..n-1 (`rawOf`).  Numbers are exact: ratings are
rationals, per-day opening-hours durations are natural numbers of minutes.
Fallible operations (pandas KeyError, numpy ValueError, uncaught Python
exceptions) return `Except String`.
-/

/-- A categorical cell (payment_methods, products, services, marks): a single
string or a list of strings; absence is `Option.none` around this type. -/
inductive CatVal where
  | str (s : String)
  | strList (l : List String)
deriving DecidableEq, Repr

/-- One record of the table, with the column set of the data model.  The
district column always holds a string (the sentinel "Not found" stands for an
unparsed address) and the phones column always holds a (possibly empty) list,
so neither cell is ever NA; the remaining non-key columns are optional.
The opening_hours_span mapping is kept as its list of per-day values (only
the values of that mapping are ever read), each value possibly absent. -/
structure Row where
  name : String
  district : String
  ratings : Rat
  review_count : Nat
  opening_hours : Option String
  opening_hours_span : Option (List (Option Nat))
  payment_methods : Option CatVal
  products : Option CatVal
  services : Option CatVal
  marks : Option CatVal
  phones : List String
  email_address : Option String
deriving DecidableEq, Repr

/-- A table as pandas sees it: rows together with their integer index labels. -/
abbrev LTable := List (Nat × Row)

/-- A raw table as delivered by the upstream compiler: rows labelled
positionally 0..n-1 (a default RangeIndex). -/
def rawOf (rs : List Row) : LTable := (List.range rs.length).zip rs

/-- Label lookup, as dataset.loc[i] / dataset.review_count[i]. -/
def lookupRow (t : LTable) (i : Nat) : Option Row :=
  (t.find? (fun p => p.1 == i)).map (fun p => p.2)

/-- The elementwise NA mask of a row restricted to the indicator columns
(every column except name, ratings, review_count), in column order: district,
opening_hours, opening_hours_span, payment_methods, products, services,
marks, phones, email_address.  District and phones cells are never NA
(sentinel string and possibly-empty list respectively). -/
def isnaList (r : Row) : List Bool :=
  [false,
   r.opening_hours.isNone,
   r.opening_hours_span.isNone,
   r.payment_methods.isNone,
   r.products.isNone,
   r.services.isNone,
   r.marks.isNone,
   false,
   r.email_address.isNone]

/-- sum(pd.isna(dataset.loc[i,indic])): how many indicator cells are NA. -/
def isnaCount (r : Row) : Nat := (isnaList r).count true

/-- The drop test of removeEmptyObservations:
(sum(pd.isna(dataset.loc[i,indic]))==12) & (dataset.review_count[i]==0). -/
def dropCondition (r : Row) : Bool :=
  (isnaCount r == 12) && (r.review_count == 0)

/-- One iteration of the removeEmptyObservations loop at label i: look the row
up by label (KeyError when the label is gone) and drop it in place when the
drop test holds. -/
def removeStep (t : LTable) (i : Nat) : Except String LTable :=
  match lookupRow t i with
  | none => Except.error "KeyError"
  | some r =>
    if dropCondition r then Except.ok (t.filter (fun p => p.1 != i)) else Except.ok t

/-- The removeEmptyObservations loop over a fixed list of labels (range(len)
is computed once, before any drop happens). -/
def removeLoop : LTable → List Nat → Except String LTable
  | t, [] => Except.ok t
  | t, i :: is =>
    match removeStep t i with
    | Except.ok t2 => removeLoop t2 is
    | Except.error e => Except.error e

/-- removeEmptyObservations(dataset): iterate the drop test over
range(len(dataset)). -/
def removeEmptyObservations (t : LTable) : Except String LTable :=
  removeLoop t (List.range t.length)

lemma isnaCount_le_nine (r : Row) : isnaCount r ≤ 9 := by
  have h := List.count_le_length true (isnaList r)
  simpa [isnaList] using h

lemma dropCondition_eq_false (r : Row) : dropCondition r = false := by
  have h9 : isnaCount r ≤ 9 := isnaCount_le_nine r
  have hne : isnaCount r ≠ 12 := by omega
  have hbeq : (isnaCount r == 12) = false := beq_eq_false_iff_ne.mpr hne
  simp [dropCondition, hbeq]

lemma removeStep_ok (t : LTable) (i : Nat) (r : Row) (h : lookupRow t i = some r) :
    removeStep t i = Except.ok t := by
  simp [removeStep, h, dropCondition_eq_false r]

lemma removeLoop_ok (t : LTable) :
    ∀ l : List Nat, (∀ i ∈ l, (lookupRow t i).isSome = true) → removeLoop t l = Except.ok t := by
  intro l
  induction l with
  | nil => intro _; rfl
  | cons i is ih =>
    intro h
    have hi : (lookupRow t i).isSome = true := h i (List.mem_cons_self i is)
    obtain ⟨r, hr⟩ := Option.isSome_iff_exists.mp hi
    have hstep : removeStep t i = Except.ok t := removeStep_ok t i r hr
    have hrest : ∀ j ∈ is, (lookupRow t j).isSome = true := by
      intro j hj
      exact h j (List.mem_cons_of_mem i hj)
    simp [removeLoop, hstep, ih hrest]

lemma length_rawOf (rs : List Row) : (rawOf rs).length = rs.length := by
  simp [rawOf]

lemma lookupRow_rawOf_isSome (rs : List Row) (i : Nat) (h : i < rs.length) :
    (lookupRow (rawOf rs) i).isSome = true := by
  have hlen : i < (rawOf rs).length := by
    rw [length_rawOf]; exact h
  have hmem : (rawOf rs)[i] ∈ rawOf rs := List.getElem_mem hlen
  have hr : i < (List.range rs.length).length := by
    simpa using h
  have hfst : ((rawOf rs)[i]).1 = i := by
    have hz : (rawOf rs)[i] = ((List.range rs.length).get ⟨i, hr⟩, rs.get ⟨i, h⟩) := by
      simp [rawOf, List.getElem_zip]
    rw [hz]
    simp
  have hfind : ((rawOf rs).find? (fun p => p.1 == i)).isSome = true := by
    rw [List.find?_isSome]
    exact ⟨(rawOf rs)[i], hmem, by simp [hfst]⟩
  simp [lookupRow, hfind]

/-- removeEmptyObservations never drops a row of a positionally labelled raw
table: the drop test needs exactly 12 NA indicator cells, but only 9
indicator columns exist (7 of which can be NA at all). -/
lemma remove_rawOf (rs : List Row) :
    removeEmptyObservations (rawOf rs) = Except.ok (rawOf rs) := by
  apply removeLoop_ok
  intro i hi
  have : i < rs.length := by
    rw [length_rawOf] at hi
    exact List.mem_range.mp hi
  exact lookupRow_rawOf_isSome rs i this

/-- The value counts of a column, as a mapping from each distinct value to its
number of occurrences (the descending display order of value_counts is not
modelled; no claim depends on it). -/
def valueCounts (ds : List String) : List (String × Nat) :=
  ds.dedup.map (fun d => (d, ds.count d))

/-- getDistrictCounts(dataset): value counts of the district column, then
district_counts.drop("Not found", inplace=True).  A pandas drop of a label
that is not in the index raises KeyError. -/
def getDistrictCounts (rows : List Row) : Except String (List (String × Nat)) :=
  let ds := rows.map (fun r => r.district)
  if "Not found" ∈ ds then
    Except.ok ((valueCounts ds).filter (fun p => p.1 != "Not found"))
  else
    Except.error "KeyError: Not found"

/-- sum(filter(None, list(dict.values()))): drop the falsy values (None and
zero durations) and sum the rest. -/
def sumSpans (m : List (Option Nat)) : Nat :=
  (((m.filterMap id).filter (fun v => v != 0)).sum)

/-- getArrayOfSumsOfOpeningHoursSpans(dataset): per row, NaN when the span
mapping is absent, otherwise the sum of its truthy values; then the
assignment array[array==0]=np.nan.  When no entry is NaN and the list is
nonempty, np.array builds an integer array (durations are integer minutes),
and writing np.nan into an integer array raises ValueError before any
element is touched; otherwise the array is a float array and the zero
entries become NaN. -/
def getArrayOfSumsOfOpeningHoursSpans (rows : List Row) :
    Except String (List (Option Nat)) :=
  let arr := rows.map (fun r => (r.opening_hours_span).map sumSpans)
  if arr ≠ [] ∧ arr.all (fun v => v.isSome) then
    Except.error "ValueError: cannot convert float NaN to integer"
  else
    Except.ok (arr.map (fun v => if v = some 0 then none else v))

/-- interpretReviewsAndRatings, rating-statistics part: the mean, minimum and
maximum of available_ratings = dataset.ratings[dataset.review_count!=0],
and the two tie counts np.sum(dataset.ratings==min(available_ratings)) and
np.sum(dataset.ratings==max(available_ratings)), which range over the whole
ratings column.  Python min/max of an empty selection raises, hence none. -/
def interpretReviewsAndRatings (rows : List Row) :
    Option (Rat × Rat × Rat × Nat × Nat) :=
  let available := (rows.filter (fun r => r.review_count != 0)).map (fun r => r.ratings)
  match available with
  | [] => none
  | a :: rest =>
    let mn := rest.foldl min a
    let mx := rest.foldl max a
    let mean := (a :: rest).sum / ((a :: rest).length : Rat)
    some (mean, mn, mx,
          rows.countP (fun r => r.ratings == mn),
          rows.countP (fun r => r.ratings == mx))

/-- showRows(no_of_rows): head(n) for n>=0, tail(abs(n)) otherwise (the
integer coercion of the argument is not modelled; the argument is the
already-coerced integer). -/
def showRows (rows : List Row) (n : Int) : List Row :=
  if n ≥ 0 then rows.take n.toNat
  else rows.drop (rows.length - n.natAbs)

/-- The characters after the first '@' of the string, none when no '@'
occurs.  This is where a leftmost match of the pattern starts: a match must
begin at an '@', and any '.' after a later '@' also lies after the first
one, so the leftmost match starts at the first '@'. -/
def afterFirstAt : List Char → Option (List Char)
  | [] => none
  | c :: cs => if c = '@' then some cs else afterFirstAt cs

/-- The prefix of the string up to and including its last '.', none when no
'.' occurs: the greedy tail of the pattern.  Newlines are not special-cased
(the dot of the pattern is modelled as matching every character; email
cells are single-line strings). -/
def uptoLastDot (s : List Char) : Option (List Char) :=
  match s.reverse.dropWhile (fun c => c != '.') with
  | [] => none
  | c :: cs => some ((c :: cs).reverse)

/-- The provider of one email address:
re.search("@.*\\.", email).group(0) with the leading '@' and the trailing
'.' stripped (value[1:len(value)-1]); none when the pattern has no match.
The greedy ".*" makes the match run from the first '@' to the last '.'
of the address. -/
def extractProvider (s : List Char) : Option (List Char) :=
  match afterFirstAt s with
  | none => none
  | some rest =>
    match uptoLastDot rest with
    | none => none
    | some v => some v.dropLast

/-- String wrapper of extractProvider. -/
def extractProviderS (e : String) : Option String :=
  (extractProvider e.data).map (fun l => String.mk l)

/-- The providers of all present email addresses, in row order.  When an
email has no match of the pattern, re.search returns None and None.group(0)
raises AttributeError, which the except ValueError clause does not catch:
the whole operation fails. -/
def emailProvidersList : List Row → Except String (List String)
  | [] => Except.ok []
  | r :: rest =>
    match r.email_address with
    | none => emailProvidersList rest
    | some e =>
      match extractProviderS e with
      | some p => (emailProvidersList rest).map (fun ps => p :: ps)
      | none => Except.error "AttributeError: NoneType object has no attribute group"

/-- Counter(email_providers): a mapping from each distinct provider to its
number of occurrences. -/
def counter (ps : List String) : List (String × Nat) :=
  ps.dedup.map (fun k => (k, ps.count k))

/-- list(email_providers_counts.values()).count(1): how many entries of the
mapping have value exactly 1. -/
def ownDomainCount (c : List (String × Nat)) : Nat :=
  (c.map Prod.snd).count 1

/-- Dictionary assignment d[k]=v: overwrite the entry of key k in place, or
append a new entry at the end. -/
def dictSet (k : String) (v : Nat) : List (String × Nat) → List (String × Nat)
  | [] => [(k, v)]
  | q :: rest => if q.1 = k then (k, v) :: rest else q :: dictSet k v rest

/-- Stable insertion into a list that is sorted ascending by count. -/
def insertSorted (p : String × Nat) : List (String × Nat) → List (String × Nat)
  | [] => [p]
  | q :: rest => if p.2 ≤ q.2 then p :: q :: rest else q :: insertSorted p rest

/-- sorted(items, key=lambda x: x[1]): stable sort ascending by count
(stable insertion sort computes the same list as the stable sort of
Python). -/
def sortByCount : List (String × Nat) → List (String × Nat)
  | [] => []
  | p :: rest => insertSorted p (sortByCount rest)

/-- The counting tail of getEmailProvidersCounts: value counts of the
providers, then the synthetic "Own domain" entry holding the number of
count-1 entries of the mapping (computed before the assignment), then the
ascending sort by count. -/
def processProviderCounts (ps : List String) : List (String × Nat) :=
  sortByCount (dictSet "Own domain" (ownDomainCount (counter ps)) (counter ps))

/-- getEmailProvidersCounts(dataset): extract the providers of all present
email addresses (failing on an address without a pattern match), count them,
add the "Own domain" entry and sort ascending by count. -/
def getEmailProvidersCounts (rows : List Row) :
    Except String (List (String × Nat)) :=
  (emailProvidersList rows).map processProviderCounts

lemma sum_filter_truthy (l : List Nat) : (l.filter (fun v => v != 0)).sum = l.sum := by
  induction l with
  | nil => rfl
  | cons a t ih =>
    by_cases ha : a = 0
    · simp [List.filter_cons, ha, ih]
    · simp [List.filter_cons, ha, ih]

lemma sumSpans_eq_sum (m : List (Option Nat)) : sumSpans m = (m.filterMap id).sum := by
  simp [sumSpans, sum_filter_truthy]

lemma afterFirstAt_append (pre rest : List Char) (h : '@' ∉ pre) :
    afterFirstAt (pre ++ '@' :: rest) = some rest := by
  induction pre with
  | nil => simp [afterFirstAt]
  | cons c cs ih =>
    have hc : c ≠ '@' := by
      intro hcEq
      exact h (by simp [hcEq])
    have hcs : '@' ∉ cs := by
      intro hmem
      exact h (List.mem_cons_of_mem c hmem)
    simp [afterFirstAt, hc, ih hcs]

lemma dropWhile_append_dot (l r : List Char) (h : '.' ∉ l) :
    (l ++ '.' :: r).dropWhile (fun c => c != '.') = '.' :: r := by
  induction l with
  | nil => simp [List.dropWhile]
  | cons c cs ih =>
    have hc : c ≠ '.' := by
      intro hcEq
      exact h (by simp [hcEq])
    have hcs : '.' ∉ cs := by
      intro hmem
      exact h (List.mem_cons_of_mem c hmem)
    have hb : (c != '.') = true := by simpa using hc
    rw [List.cons_append, List.dropWhile_cons, hb]
    simpa using ih hcs

lemma uptoLastDot_append (mid post : List Char) (h : '.' ∉ post) :
    uptoLastDot (mid ++ '.' :: post) = some (mid ++ ['.']) := by
  have hrev : (mid ++ '.' :: post).reverse = post.reverse ++ '.' :: mid.reverse := by
    simp
  have hpost : '.' ∉ post.reverse := by
    simpa using h
  rw [uptoLastDot, hrev, dropWhile_append_dot post.reverse mid.reverse hpost]
  simp

lemma extractProvider_split (pre mid post : List Char) (h1 : '@' ∉ pre) (h2 : '.' ∉ post) :
    extractProvider (pre ++ '@' :: (mid ++ '.' :: post)) = some mid := by
  simp [extractProvider, afterFirstAt_append pre (mid ++ '.' :: post) h1,
        uptoLastDot_append mid post h2]

lemma foldl_min_mem (l : List Rat) : ∀ a : Rat, l.foldl min a ∈ a :: l := by
  induction l with
  | nil => intro a; simp
  | cons b t ih =>
    intro a
    have h := ih (min a b)
    rcases List.mem_cons.mp h with h1 | h2
    · rcases min_choice a b with hc | hc
      · rw [List.foldl_cons, hc]
        rw [hc] at h1
        simp [h1]
      · rw [List.foldl_cons, hc]
        rw [hc] at h1
        simp [h1]
    · simp [List.foldl_cons, List.mem_cons_of_mem, h2]

lemma foldl_min_le (l : List Rat) : ∀ a : Rat, ∀ x ∈ a :: l, l.foldl min a ≤ x := by
  induction l with
  | nil =>
    intro a x hx
    simp at hx
    simp [hx]
  | cons b t ih =>
    intro a x hx
    have hself : t.foldl min (min a b) ≤ min a b := ih (min a b) (min a b) (List.mem_cons_self _ _)
    rcases List.mem_cons.mp hx with h1 | hx2
    · calc t.foldl min (min a b) ≤ min a b := hself
        _ ≤ a := min_le_left a b
        _ = x := h1.symm
    · rcases List.mem_cons.mp hx2 with h2 | h3
      · calc t.foldl min (min a b) ≤ min a b := hself
          _ ≤ b := min_le_right a b
          _ = x := h2.symm
      · exact ih (min a b) x (List.mem_cons_of_mem _ h3)

lemma foldl_max_mem (l : List Rat) : ∀ a : Rat, l.foldl max a ∈ a :: l := by
  induction l with
  | nil => intro a; simp
  | cons b t ih =>
    intro a
    have h := ih (max a b)
    rcases List.mem_cons.mp h with h1 | h2
    · rcases max_choice a b with hc | hc
      · rw [List.foldl_cons, hc]
        rw [hc] at h1
        simp [h1]
      · rw [List.foldl_cons, hc]
        rw [hc] at h1
        simp [h1]
    · simp [List.foldl_cons, List.mem_cons_of_mem, h2]

lemma le_foldl_max (l : List Rat) : ∀ a : Rat, ∀ x ∈ a :: l, x ≤ l.foldl max a := by
  induction l with
  | nil =>
    intro a x hx
    simp at hx
    simp [hx]
  | cons b t ih =>
    intro a x hx
    have hself : max a b ≤ t.foldl max (max a b) := ih (max a b) (max a b) (List.mem_cons_self _ _)
    rcases List.mem_cons.mp hx with h1 | hx2
    · calc x = a := h1
        _ ≤ max a b := le_max_left a b
        _ ≤ t.foldl max (max a b) := hself
    · rcases List.mem_cons.mp hx2 with h2 | h3
      · calc x = b := h2
          _ ≤ max a b := le_max_right a b
          _ ≤ t.foldl max (max a b) := hself
      · exact ih (max a b) x (List.mem_cons_of_mem _ h3)

lemma perm_insertSorted (p : String × Nat) (l : List (String × Nat)) :
    List.Perm (insertSorted p l) (p :: l) := by
  induction l with
  | nil => simp [insertSorted]
  | cons q t ih =>
    by_cases hle : p.2 ≤ q.2
    · simp [insertSorted, hle]
    · rw [insertSorted, if_neg hle]
      exact List.Perm.trans (List.Perm.cons q ih) (List.Perm.swap p q t)

lemma perm_sortByCount (l : List (String × Nat)) : List.Perm (sortByCount l) l := by
  induction l with
  | nil => simp [sortByCount]
  | cons p t ih =>
    have h1 : List.Perm (sortByCount (p :: t)) (p :: sortByCount t) :=
      perm_insertSorted p (sortByCount t)
    exact List.Perm.trans h1 (List.Perm.cons p ih)

lemma pairwise_insertSorted (p : String × Nat) (l : List (String × Nat))
    (h : l.Pairwise (fun a b => a.2 ≤ b.2)) :
    (insertSorted p l).Pairwise (fun a b => a.2 ≤ b.2) := by
  induction l with
  | nil => simp [insertSorted]
  | cons q t ih =>
    rcases List.pairwise_cons.mp h with ⟨hq, ht⟩
    by_cases hle : p.2 ≤ q.2
    · rw [insertSorted, if_pos hle]
      refine List.pairwise_cons.mpr ⟨?_, h⟩
      intro x hx
      rcases List.mem_cons.mp hx with h1 | h2
      · rw [h1]; exact hle
      · exact le_trans hle (hq x h2)
    · rw [insertSorted, if_neg hle]
      have hqp : q.2 ≤ p.2 := le_of_not_le hle
      refine List.pairwise_cons.mpr ⟨?_, ih ht⟩
      intro x hx
      have hx2 : x ∈ p :: t := (perm_insertSorted p t).mem_iff.mp hx
      rcases List.mem_cons.mp hx2 with h1 | h2
      · rw [h1]; exact hqp
      · exact hq x h2

lemma pairwise_sortByCount (l : List (String × Nat)) :
    (sortByCount l).Pairwise (fun a b => a.2 ≤ b.2) := by
  induction l with
  | nil => simp [sortByCount]
  | cons p t ih => exact pairwise_insertSorted p (sortByCount t) ih

lemma mem_dictSet_self (k : String) (v : Nat) (m : List (String × Nat)) :
    (k, v) ∈ dictSet k v m := by
  induction m with
  | nil => simp [dictSet]
  | cons q t ih =>
    by_cases hq : q.1 = k
    · simp [dictSet, hq]
    · rw [dictSet, if_neg hq]
      exact List.mem_cons_of_mem q ih

lemma mem_keys_dictSet (k : String) (v : Nat) (m : List (String × Nat)) (x : String) :
    x ∈ (dictSet k v m).map Prod.fst ↔ x ∈ m.map Prod.fst ∨ x = k := by
  induction m with
  | nil => simp [dictSet]
  | cons q t ih =>
    by_cases hq : q.1 = k
    · rw [dictSet, if_pos hq]
      simp [hq]
      tauto
    · rw [dictSet, if_neg hq]
      simp [ih]
      tauto

lemma nodup_keys_dictSet (k : String) (v : Nat) (m : List (String × Nat))
    (h : (m.map Prod.fst).Nodup) : ((dictSet k v m).map Prod.fst).Nodup := by
  induction m with
  | nil => simp [dictSet]
  | cons q t ih =>
    rw [List.map_cons, List.nodup_cons] at h
    rcases h with ⟨hq, ht⟩
    by_cases hqk : q.1 = k
    · rw [dictSet, if_pos hqk]
      rw [List.map_cons, List.nodup_cons]
      exact ⟨by rw [← hqk]; exact hq, ht⟩
    · rw [dictSet, if_neg hqk]
      rw [List.map_cons, List.nodup_cons]
      refine ⟨?_, ih ht⟩
      intro hmem
      rcases (mem_keys_dictSet k v t q.1).mp hmem with h1 | h2
      · exact hq h1
      · exact hqk h2

lemma keys_counter (ps : List String) : (counter ps).map Prod.fst = ps.dedup := by
  rw [counter, List.map_map]
  rw [show (Prod.fst ∘ fun k => (k, ps.count k)) = id from rfl, List.map_id]

lemma nodup_keys_counter (ps : List String) : ((counter ps).map Prod.fst).Nodup := by
  rw [keys_counter]
  exact List.nodup_dedup ps

lemma ownDomainCount_counter (ps : List String) :
    ownDomainCount (counter ps) = (ps.dedup.filter (fun p => ps.count p == 1)).length := by
  rw [ownDomainCount, counter, List.map_map]
  rw [show (Prod.snd ∘ fun k => (k, ps.count k)) = fun k => ps.count k from rfl]
  rw [List.count, List.countP_map]
  rw [List.countP_eq_length_filter]
  rfl

/-- A fully present-but-minimal demo row. -/
def baseRow : Row :=
  { name := "X", district := "Praha 1", ratings := 0, review_count := 0,
    opening_hours := none, opening_hours_span := none, payment_methods := none,
    products := none, services := none, marks := none, phones := [],
    email_address := none }

/-- A row with zero reviews and every droppable field absent (district can
only be the sentinel, phones only the empty list). -/
def emptyRow : Row :=
  { name := "Nameless", district := "Not found", ratings := 0, review_count := 0,
    opening_hours := none, opening_hours_span := none, payment_methods := none,
    products := none, services := none, marks := none, phones := [],
    email_address := none }

/-- Demo table for the district counts: two Praha 1 rows, one Praha 2 row,
one row with an unparsed address. -/
def demoDistrictRows : List Row :=
  [baseRow, { baseRow with district := "Not found" },
   { baseRow with district := "Praha 2" }, { baseRow with district := "Praha 1" }]

/-- Demo table for the ratings statistics: two rows of rating 50, one of
them without any review. -/
def c7Rows : List Row :=
  [{ baseRow with ratings := 50, review_count := 0 },
   { baseRow with ratings := 50, review_count := 3 }]

/-- Demo table with a single reviewed row of rating 50. -/
def c7WitnessRows : List Row := [{ baseRow with ratings := 50, review_count := 2 }]

/-- A row whose opening-hours mapping is present and sums to zero. -/
def c8ZeroRow : Row := { baseRow with opening_hours_span := some [some 0] }

/-- Demo table mixing a present zero-sum mapping with an absent mapping. -/
def c8MixedRows : List Row := [c8ZeroRow, baseRow]

/-- Demo table with three email addresses over two providers. -/
def demoEmailRows : List Row :=
  [{ baseRow with email_address := some "a@seznam.cz" },
   { baseRow with email_address := some "b@seznam.cz" },
   { baseRow with email_address := some "c@gmail.com" }]

/-- C1 counterexample: the claim asserts that the provider extracted from
"foo@example.com" is "example.com"; the code matches from the '@' to the
last '.' and strips both ends, yielding "example", and the provider mapping
of a table with that one address has no key "example.com". -/
theorem c1_counterexample :
    extractProviderS "foo@example.com" = some "example" ∧
    getEmailProvidersCounts [{ baseRow with email_address := some "foo@example.com" }] =
      Except.ok [("example", 1), ("Own domain", 1)] ∧
    "example.com" ∉ ([("example", 1), ("Own domain", 1)].map Prod.fst) :=
  ⟨rfl, rfl, by decide⟩

/-- C1 amended: for every row whose email address is present, the provider
is the substring of the address from the first '@' up to and including the
last following '.' (the greedy match), with the leading '@' and trailing
'.' stripped: on an address pre@mid.post with no '@' before the shown '@'
and no '.' after the shown '.', the provider is exactly mid. -/
theorem c1_amended (pre mid post : List Char) (h1 : '@' ∉ pre) (h2 : '.' ∉ post) :
    extractProvider (pre ++ '@' :: (mid ++ '.' :: post)) = some mid :=
  extractProvider_split pre mid post h1 h2

theorem c1_witness : extractProviderS "foo@sub.example.co.uk" = some "sub.example.co" := by
  have h := c1_amended ("foo".data) ("sub.example.co".data) ("uk".data) (by decide) (by decide)
  have hdata : "foo@sub.example.co.uk".data =
      "foo".data ++ '@' :: ("sub.example.co".data ++ '.' :: "uk".data) := by decide
  rw [extractProviderS, hdata, h]
  decide

/-- C2, code evaluated at the failing input: a raw table holding one row
with zero reviews and every droppable field absent.  The claim (and the
comments of the code) say the row is removed; the code counts 7 NA
indicator cells, compares with the hard-coded 12, and keeps the row. -/
theorem c2_code_evaluation :
    isnaCount emptyRow = 7 ∧ emptyRow.review_count = 0 ∧
    dropCondition emptyRow = false ∧
    removeEmptyObservations (rawOf [emptyRow]) = Except.ok (rawOf [emptyRow]) :=
  ⟨rfl, rfl, rfl, rfl⟩

/-- C3 counterexample: on a table whose only district is "Praha 1" the drop
of the sentinel label raises KeyError instead of being a no-op, so
getDistrictCounts does fail on a well-formed filtered table. -/
theorem c3_counterexample :
    getDistrictCounts [baseRow] = Except.error "KeyError: Not found" ∧
    ∀ l, getDistrictCounts [baseRow] ≠ Except.ok l := by
  refine ⟨rfl, ?_⟩
  intro l h
  rw [show getDistrictCounts [baseRow] = Except.error "KeyError: Not found" from rfl] at h
  exact Except.noConfusion h

/-- C3 amended: when some row has district "Not found", getDistrictCounts
returns the per-district occurrence counts with the sentinel excluded
(membership characterised below); when no row has district "Not found",
the exclusion raises KeyError instead of being a no-op. -/
theorem c3_amended (rows : List Row) :
    ("Not found" ∈ rows.map (fun r => r.district) →
      getDistrictCounts rows =
        Except.ok ((valueCounts (rows.map (fun r => r.district))).filter
          (fun p => p.1 != "Not found")) ∧
      ∀ d c,
        ((d, c) ∈ (valueCounts (rows.map (fun r => r.district))).filter
            (fun p => p.1 != "Not found") ↔
          (d ≠ "Not found" ∧ d ∈ rows.map (fun r => r.district) ∧
           c = (rows.map (fun r => r.district)).count d))) ∧
    ("Not found" ∉ rows.map (fun r => r.district) →
      getDistrictCounts rows = Except.error "KeyError: Not found") := by
  constructor
  · intro hmem
    constructor
    · unfold getDistrictCounts
      rw [if_pos hmem]
    · intro d c
      constructor
      · intro hdc
        rcases List.mem_filter.mp hdc with ⟨hv, hne⟩
        rcases List.mem_map.mp hv with ⟨a, ha, heq⟩
        have had : a = d := congrArg Prod.fst heq
        have hac : (rows.map (fun r => r.district)).count a = c := congrArg Prod.snd heq
        subst had
        refine ⟨?_, List.mem_dedup.mp ha, hac.symm⟩
        simpa using hne
      · rintro ⟨hne, hd, rfl⟩
        refine List.mem_filter.mpr ⟨?_, ?_⟩
        · exact List.mem_map.mpr ⟨d, List.mem_dedup.mpr hd, rfl⟩
        · simpa using hne
  · intro hnmem
    unfold getDistrictCounts
    rw [if_neg hnmem]

theorem c3_witness :
    (("Praha 1", 2) ∈ (valueCounts (demoDistrictRows.map (fun r => r.district))).filter
        (fun p => p.1 != "Not found")) ∧
    getDistrictCounts [{ baseRow with district := "Praha 2" }] =
      Except.error "KeyError: Not found" := by
  constructor
  · exact (((c3_amended demoDistrictRows).1 (by decide)).2 "Praha 1" 2).mpr (by decide)
  · exact (c3_amended [{ baseRow with district := "Praha 2" }]).2 (by decide)

/-- C4, code evaluated at the failing input: an address without any match
of the pattern (no '.' after the '@').  re.search returns None, so
None.group(0) raises AttributeError, which the except-ValueError clause
does not catch: the operation fails instead of skipping the row, contrary
to the comment of that clause. -/
theorem c4_code_evaluation :
    extractProviderS "foo@localhost" = none ∧
    getEmailProvidersCounts [{ baseRow with email_address := some "foo@localhost" }] =
      Except.error "AttributeError: NoneType object has no attribute group" :=
  ⟨rfl, rfl⟩

/-- C5: filtering is idempotent on every raw table: removeEmptyObservations
succeeds, and applying it again to its output succeeds with the same
table.  On a table whose columns are the documented column set, the drop
test (exactly 12 NA cells) never fires, so both passes return the input. -/
theorem c5_filter_idempotent (rs : List Row) :
    ∃ t, removeEmptyObservations (rawOf rs) = Except.ok t ∧
      removeEmptyObservations t = Except.ok t :=
  ⟨rawOf rs, remove_rawOf rs, remove_rawOf rs⟩

theorem c5_witness :
    ∃ t, removeEmptyObservations (rawOf [baseRow, emptyRow]) = Except.ok t ∧
      removeEmptyObservations t = Except.ok t :=
  c5_filter_idempotent [baseRow, emptyRow]

/-- C6: removeEmptyObservations returns its input raw table unchanged (so
the input is not mutated) and the returned table carries the same columns
(the Row type) with consecutive labels 0..n-1. -/
theorem c6_remove_frame (rs : List Row) :
    removeEmptyObservations (rawOf rs) = Except.ok (rawOf rs) ∧
    (rawOf rs).map Prod.fst = List.range rs.length := by
  refine ⟨remove_rawOf rs, ?_⟩
  rw [rawOf]
  exact List.map_fst_zip (List.range rs.length) rs (by simp)

theorem c6_witness :
    removeEmptyObservations (rawOf [baseRow, emptyRow]) = Except.ok (rawOf [baseRow, emptyRow]) ∧
    (rawOf [baseRow, emptyRow]).map Prod.fst = List.range ([baseRow, emptyRow] : List Row).length :=
  c6_remove_frame [baseRow, emptyRow]

/-- C7 counterexample: on a table with a zero-review row of rating 50 and a
reviewed row of rating 50, the min/max tie counts of the code are 2 (they
scan the whole ratings column), while the count restricted to rows with
review_count different from 0 is 1: zero-review rows do contribute to the
tie counts, contrary to the claim. -/
theorem c7_counterexample :
    interpretReviewsAndRatings c7Rows = some (50, 50, 50, 2, 2) ∧
    (c7Rows.filter (fun r => r.review_count != 0)).countP
      (fun r => r.ratings == (50 : Rat)) = 1 := by
  constructor
  · simp [c7Rows, baseRow, interpretReviewsAndRatings, List.countP, List.countP.go]
  · simp [c7Rows, baseRow, List.countP, List.countP.go]

/-- C7 amended: whenever some row has a nonzero review count, the mean,
minimum and maximum are those of the ratings restricted to rows with
review_count different from 0, while the two tie counts are computed by
exact equality over the ENTIRE filtered table (zero-review rows included). -/
theorem c7_amended (rows : List Row) (a : Rat) (rest : List Rat)
    (h : (rows.filter (fun r => r.review_count != 0)).map (fun r => r.ratings) = a :: rest) :
    ∃ mn mx,
      interpretReviewsAndRatings rows =
        some ((a :: rest).sum / ((a :: rest).length : Rat), mn, mx,
          rows.countP (fun r => r.ratings == mn),
          rows.countP (fun r => r.ratings == mx)) ∧
      mn ∈ a :: rest ∧ (∀ x ∈ a :: rest, mn ≤ x) ∧
      mx ∈ a :: rest ∧ (∀ x ∈ a :: rest, x ≤ mx) := by
  refine ⟨rest.foldl min a, rest.foldl max a, ?_, foldl_min_mem rest a,
    foldl_min_le rest a, foldl_max_mem rest a, le_foldl_max rest a⟩
  simp only [interpretReviewsAndRatings, h]

theorem c7_witness :
    ∃ mn mx,
      interpretReviewsAndRatings c7WitnessRows =
        some ((((50 : Rat) :: []).sum / (((50 : Rat) :: []).length : Rat)), mn, mx,
          c7WitnessRows.countP (fun r => r.ratings == mn),
          c7WitnessRows.countP (fun r => r.ratings == mx)) ∧
      mn ∈ (50 : Rat) :: [] ∧ (∀ x ∈ (50 : Rat) :: [], mn ≤ x) ∧
      mx ∈ (50 : Rat) :: [] ∧ (∀ x ∈ (50 : Rat) :: [], x ≤ mx) :=
  c7_amended c7WitnessRows 50 [] (by rfl)

/-- C8 counterexample: on a table whose single row has a present mapping
summing to 0, every entry of the sums list is a number, so np.array builds
an integer array and the masked assignment of NaN raises ValueError: the
operation yields no array at all, contradicting both the zero-to-missing
rule and the length guarantee of the claim. -/
theorem c8_counterexample :
    getArrayOfSumsOfOpeningHoursSpans [c8ZeroRow] =
      Except.error "ValueError: cannot convert float NaN to integer" ∧
    ∀ l, getArrayOfSumsOfOpeningHoursSpans [c8ZeroRow] ≠ Except.ok l := by
  refine ⟨rfl, ?_⟩
  intro l h
  rw [show getArrayOfSumsOfOpeningHoursSpans [c8ZeroRow] =
      Except.error "ValueError: cannot convert float NaN to integer" from rfl] at h
  exact Except.noConfusion h

/-- C8 amended: when at least one row of the table has an absent span
mapping, the sums array is produced, has one entry per row, and every row
whose present per-day durations sum to exactly 0 is recorded as missing;
when the table is nonempty and every row has a present mapping, the
zero-to-missing rewrite instead fails with a ValueError (NaN cannot be
written into the integer array of sums). -/
theorem c8_amended (rows : List Row) :
    ((∃ r ∈ rows, r.opening_hours_span = none) →
      ∃ l, getArrayOfSumsOfOpeningHoursSpans rows = Except.ok l ∧
        l.length = rows.length ∧
        ∀ (i : Nat) (r : Row) (m : List (Option Nat)), rows[i]? = some r →
          r.opening_hours_span = some m → (m.filterMap id).sum = 0 →
          l[i]? = some none) ∧
    ((rows ≠ [] ∧ ∀ r ∈ rows, r.opening_hours_span ≠ none) →
      getArrayOfSumsOfOpeningHoursSpans rows =
        Except.error "ValueError: cannot convert float NaN to integer") := by
  constructor
  · rintro ⟨r0, hr0, hnone⟩
    have hcond : ¬(rows.map (fun r => (r.opening_hours_span).map sumSpans) ≠ [] ∧
        (rows.map (fun r => (r.opening_hours_span).map sumSpans)).all
          (fun v => v.isSome)) := by
      rintro ⟨-, hall⟩
      have hsome := List.all_eq_true.mp hall _ (List.mem_map.mpr ⟨r0, hr0, rfl⟩)
      rw [hnone] at hsome
      simp at hsome
    refine ⟨(rows.map (fun r => (r.opening_hours_span).map sumSpans)).map
      (fun v => if v = some 0 then none else v), ?_, by simp, ?_⟩
    · simp only [getArrayOfSumsOfOpeningHoursSpans]
      rw [if_neg hcond]
    · intro i r m hi hm hsum
      have hz : sumSpans m = 0 := by
        rw [sumSpans_eq_sum]
        exact hsum
      rw [List.getElem?_map, List.getElem?_map, hi]
      simp [hm, hz]
  · rintro ⟨hne, hall⟩
    have hcond : rows.map (fun r => (r.opening_hours_span).map sumSpans) ≠ [] ∧
        (rows.map (fun r => (r.opening_hours_span).map sumSpans)).all
          (fun v => v.isSome) := by
      constructor
      · intro h
        exact hne (List.map_eq_nil_iff.mp h)
      · rw [List.all_eq_true]
        intro v hv
        rcases List.mem_map.mp hv with ⟨r, hr, rfl⟩
        rcases hspan : r.opening_hours_span with _ | m
        · exact absurd hspan (hall r hr)
        · simp
    simp only [getArrayOfSumsOfOpeningHoursSpans]
    rw [if_pos hcond]

theorem c8_witness :
    (∃ l, getArrayOfSumsOfOpeningHoursSpans c8MixedRows = Except.ok l ∧
      l.length = c8MixedRows.length ∧
      ∀ (i : Nat) (r : Row) (m : List (Option Nat)), c8MixedRows[i]? = some r →
        r.opening_hours_span = some m → (m.filterMap id).sum = 0 →
        l[i]? = some none) ∧
    getArrayOfSumsOfOpeningHoursSpans [c8ZeroRow] =
      Except.error "ValueError: cannot convert float NaN to integer" :=
  ⟨(c8_amended c8MixedRows).1 ⟨baseRow, by decide, rfl⟩,
   (c8_amended [c8ZeroRow]).2 ⟨by decide, by decide⟩⟩

/-- C9: whenever the provider extraction succeeds, the returned mapping has
nodup keys, holds at key "Own domain" exactly the number of distinct
providers whose occurrence count is 1 (the entry thus uniquely associated
with that key), and its entries are ordered ascending by count. -/
theorem c9_own_domain_sorted (rows : List Row) (ps : List String)
    (h : emailProvidersList rows = Except.ok ps) :
    getEmailProvidersCounts rows = Except.ok (processProviderCounts ps) ∧
    ("Own domain", (ps.dedup.filter (fun p => ps.count p == 1)).length) ∈
      processProviderCounts ps ∧
    ((processProviderCounts ps).map Prod.fst).Nodup ∧
    (processProviderCounts ps).Pairwise (fun a b => a.2 ≤ b.2) := by
  refine ⟨?_, ?_, ?_, ?_⟩
  · rw [getEmailProvidersCounts, h]
    rfl
  · rw [← ownDomainCount_counter]
    exact (perm_sortByCount _).mem_iff.mpr
      (mem_dictSet_self "Own domain" (ownDomainCount (counter ps)) (counter ps))
  · have hperm := (perm_sortByCount
      (dictSet "Own domain" (ownDomainCount (counter ps)) (counter ps))).map Prod.fst
    exact hperm.nodup_iff.mpr
      (nodup_keys_dictSet "Own domain" (ownDomainCount (counter ps)) (counter ps)
        (nodup_keys_counter ps))
  · exact pairwise_sortByCount _

theorem c9_witness :
    getEmailProvidersCounts demoEmailRows =
      Except.ok (processProviderCounts ["seznam", "seznam", "gmail"]) ∧
    ("Own domain", ((["seznam", "seznam", "gmail"] : List String).dedup.filter
        (fun p => (["seznam", "seznam", "gmail"] : List String).count p == 1)).length) ∈
      processProviderCounts ["seznam", "seznam", "gmail"] ∧
    ((processProviderCounts ["seznam", "seznam", "gmail"]).map Prod.fst).Nodup ∧
    (processProviderCounts ["seznam", "seznam", "gmail"]).Pairwise (fun a b => a.2 ≤ b.2) :=
  c9_own_domain_sorted demoEmailRows ["seznam", "seznam", "gmail"] (by rfl)

/-- C10: whenever the magnitude of the integer argument exceeds the row
count, showRows returns the whole table, for positive arguments (head) and
negative arguments (tail) alike. -/
theorem c10_showRows_overflow (rows : List Row) (n : Int) (h : rows.length < n.natAbs) :
    showRows rows n = rows := by
  rw [showRows]
  by_cases hn : n ≥ 0
  · rw [if_pos hn]
    have hlen : rows.length ≤ n.toNat := by omega
    exact List.take_of_length_le hlen
  · rw [if_neg hn]
    have hz : rows.length - n.natAbs = 0 := by omega
    rw [hz]
    exact List.drop_zero rows

theorem c10_witness :
    showRows [baseRow, emptyRow] 5 = [baseRow, emptyRow] ∧
    showRows [baseRow, emptyRow] (-5) = [baseRow, emptyRow] :=
  ⟨c10_showRows_overflow [baseRow, emptyRow] 5 (by decide),
   c10_showRows_overflow [baseRow, emptyRow] (-5) (by decide)⟩
